import Mathlib

/-!
Shallow embedding of the quadtrix/servicelogger Go package.

The repository contains two variants of the same file (`src/servicelogger.go`
and `src/unnamed/part_000`, both declaring Go package `servicelogger`).  The
two variants agree on every function except `getFilteredLogLevel` (the
`servicelogger.go` copy is missing the branch that records the first matching
filter) and the bookkeeping of the `rotation_running` flag / receiver kinds in
the logging methods.  The main embedding below follows `src/unnamed/part_000`;
definitions note where the `src/servicelogger.go` copy is identical, and the
divergent `getFilteredLogLevel` of `src/servicelogger.go` is embedded
separately in namespace `SLA`.

Go strings are modelled as `List Char`, Go `int`/`int64`/`LogLevel` as `Int`
with explicit two's-complement wrap where the Go code can overflow, and the
filesystem touched by log rotation as an association list from file names to
file records (size and permission mode).  File handles are represented by the
name of the file they append to: the `part_000` variant reassigns its handle
whenever the file name changes (on rotation and on reconfiguration), so at
every write the handle denotes the current `filename` field.
-/

set_option autoImplicit false

/-- Go strings, modelled as lists of characters. -/
abbrev GoStr := List Char

/-- Coerces a Lean string literal to the `GoStr` model. -/
def gs (s : String) : GoStr := s.toList

/-- Decimal digit characters, used to model the `%d` rendering of `fmt`. -/
def digitCh : Nat → Char
  | 0 => '0'
  | 1 => '1'
  | 2 => '2'
  | 3 => '3'
  | 4 => '4'
  | 5 => '5'
  | 6 => '6'
  | 7 => '7'
  | 8 => '8'
  | _ => '9'

/-- Fueled decimal rendering of a natural number (most significant digit
first); the fuel makes the recursion structural so that the kernel can
evaluate it. -/
def natDecimalAux : Nat → Nat → GoStr
  | 0, _ => []
  | f + 1, n => if n < 10 then [digitCh n] else natDecimalAux f (n / 10) ++ [digitCh (n % 10)]

/-- Decimal rendering of a natural number, as produced by Go's `%d` verb. -/
def natDecimal (n : Nat) : GoStr := natDecimalAux (n + 1) n

/-- Decimal rendering of an integer, as produced by Go's `%d` verb. -/
def intDec (i : Int) : GoStr := if i < 0 then '-' :: natDecimal i.natAbs else natDecimal i.toNat

/-- Value of a digit string, accumulator style: models the digit loop of Go's
`strconv.ParseUint`.  Returns `none` as soon as a non-digit is met. -/
def digitsVal : Nat → GoStr → Option Nat
  | acc, [] => some acc
  | acc, c :: tl => if 48 ≤ c.toNat ∧ c.toNat ≤ 57 then digitsVal (acc * 10 + (c.toNat - 48)) tl else none

/-- Value of a non-empty all-digit string; `none` on the empty string or on any
non-digit character. -/
def digitsToNat : GoStr → Option Nat
  | [] => none
  | c :: tl => digitsVal 0 (c :: tl)

/-- Error values surfaced by the embedded Go functions. -/
inductive GoErr where
  | suffixErr : GoErr
  | atoiSyntaxErr : GoErr
  | rangeErr : GoErr
  | statErr : GoErr
  | renameErr : GoErr
  | readFileErr : GoErr
  | jsonErr : GoErr
  deriving DecidableEq, Repr

/-- Range check of `strconv.Atoi` on a 64-bit platform: values outside the
signed 64-bit range are reported as an error. -/
def rangeChk (v : Int) : Except GoErr Int :=
  if -(2 ^ 63) ≤ v ∧ v < 2 ^ 63 then .ok v else .error GoErr.rangeErr

/-- Embedding of Go's `strconv.Atoi` (64-bit `int`): an optional sign followed
by at least one decimal digit, rejected when out of the signed 64-bit range.
Go strips the sign first and then parses digits; the model first tries the
all-digit case, which can only succeed on unsigned syntax, so the two orders
agree. -/
def go_atoi (s : GoStr) : Except GoErr Int :=
  match digitsToNat s with
  | some n => rangeChk (n : Int)
  | none =>
    match s with
    | '-' :: rest =>
      match digitsToNat rest with
      | some n => rangeChk (-(n : Int))
      | none => .error GoErr.atoiSyntaxErr
    | '+' :: rest =>
      match digitsToNat rest with
      | some n => rangeChk (n : Int)
      | none => .error GoErr.atoiSyntaxErr
    | _ => .error GoErr.atoiSyntaxErr

/-- Reduction of an integer into the signed 64-bit range by two's-complement
wrap-around, the defined behaviour of overflowing `int` multiplication in Go. -/
def wrap64 (z : Int) : Int := (z + 2 ^ 63) % 2 ^ 64 - 2 ^ 63

/-- Shared tail of `logSizeStringToLogSizeInt64`: `strconv.Atoi` on the string
without its final character, then `int64(il * modifier)` with Go's wrapping
`int` multiplication. -/
def atoiMul (lss : GoStr) (modifier : Int) : Except GoErr Int :=
  match go_atoi lss.dropLast with
  | .error e => .error e
  | .ok il => .ok (wrap64 (il * modifier))

/-- Embedding of `logSizeStringToLogSizeInt64` (identical in
`src/servicelogger.go` lines 48-67 and `src/unnamed/part_000` lines 48-67):
dispatch on the one-character suffix K/M/G/T, then parse the magnitude.
`strings.HasSuffix` with a one-character suffix is equivalent to a test of the
last character. -/
def logSizeStringToLogSizeInt64 (lss : GoStr) : Except GoErr Int :=
  if lss.getLast? = some 'K' then atoiMul lss 1024
  else if lss.getLast? = some 'M' then atoiMul lss 1048576
  else if lss.getLast? = some 'G' then atoiMul lss 1073741824
  else if lss.getLast? = some 'T' then atoiMul lss 1099511627776
  else .error GoErr.suffixErr

deriving instance DecidableEq for Except

/-- Decides whether an embedded Go call returned an error. -/
def isErrE (x : Except GoErr Int) : Bool :=
  match x with
  | .error _ => true
  | .ok _ => false

/-- Embedding of `StringToLogLevel` (identical in both variants): a switch
over exactly three spellings per level, defaulting to `LL_INFO = 3`. -/
def StringToLogLevel (text : GoStr) : Int :=
  if text = gs "TRACE" ∨ text = gs "Trace" ∨ text = gs "trace" then 1
  else if text = gs "DEBUG" ∨ text = gs "Debug" ∨ text = gs "debug" then 2
  else if text = gs "INFO" ∨ text = gs "Info" ∨ text = gs "info" then 3
  else if text = gs "WARN" ∨ text = gs "Warn" ∨ text = gs "warn" then 4
  else if text = gs "ERROR" ∨ text = gs "Error" ∨ text = gs "error" then 5
  else if text = gs "FATAL" ∨ text = gs "Fatal" ∨ text = gs "fatal" then 6
  else 3

/-- Embedding of `LogLevelToString` (identical in both variants). -/
def LogLevelToString (level : Int) : GoStr :=
  if level = 1 then gs "TRACE"
  else if level = 2 then gs "DEBUG"
  else if level = 3 then gs "INFO"
  else if level = 4 then gs "WARN"
  else if level = 5 then gs "ERROR"
  else if level = 6 then gs "FATAL"
  else gs "UNKNOWN"

example : logSizeStringToLogSizeInt64 (gs "10K") = .ok 10240 := by decide
example : logSizeStringToLogSizeInt64 (gs "2G") = .ok 2147483648 := by decide
example : isErrE (logSizeStringToLogSizeInt64 (gs "abcK")) = true := by decide
example : StringToLogLevel (gs "TRaCE") = 3 := by decide
example : StringToLogLevel (LogLevelToString 4) = 4 := by decide

/-- Embedding of Go struct `FacilityFilter`: a prefix string and a level. -/
structure FacilityFilter where
  filter : GoStr
  level : Int
  deriving DecidableEq, Repr

/-- Embedding of Go struct `FacilityFilters`: a counter and the filter list. -/
structure FacilityFilters where
  count : Int
  filters : List FacilityFilter
  deriving DecidableEq, Repr

/-- Embedding of Go struct `Logger`.  The Go fields `base` and `filehandle`
are I/O objects; the `part_000` variant rebinds both whenever `filename`
changes, so every write goes to the file currently named `filename` and the
two fields carry no further state of their own.  The Go field `prefix` is
called `pfx` here because the Go spelling is unavailable. -/
structure Logger where
  pfx : GoStr
  MinLoglevel : Int
  filename : GoStr
  rotate : Bool
  rotatesize : Int
  keep : Int
  rotation_running : Bool
  filters : FacilityFilters
  deriving DecidableEq, Repr

/-- Element lookup with the dummy filter as default; the embedded loops only
index positions recorded earlier in the same traversal, which are in range. -/
def listGetD : List FacilityFilter → Nat → FacilityFilter
  | [], _ => ⟨[], 3⟩
  | f :: _, 0 => f
  | _ :: tl, n + 1 => listGetD tl n

/-- Filter-selection loop of `getFilteredLogLevel` from `src/unnamed/part_000`
lines 317-329: `n` is the index of the head of `rest` within `all`, `found`
is the Go variable `foundfilter` (`none` models `-1`).  A matching filter
replaces the recorded one when its prefix length is greater or equal (the
Go test `len(filter.filter) >= len(...)`), and is recorded outright when none
was recorded yet. -/
def ffLoopB (facility : GoStr) (all : List FacilityFilter) : Nat → List FacilityFilter → Option Nat → Option Nat
  | _, [], found => found
  | n, f :: tl, found =>
    let found2 :=
      if f.filter.isPrefixOf facility then
        match found with
        | some m => if (listGetD all m).filter.length ≤ f.filter.length then some n else some m
        | none => some n
      else found
    ffLoopB facility all (n + 1) tl found2

/-- Embedding of `getFilteredLogLevel` from `src/unnamed/part_000` lines
314-336: the best-match index decides the level, otherwise the logger's
configured minimum level is returned. -/
def getFilteredLogLevel (slog : Logger) (facility : GoStr) : Int :=
  match ffLoopB facility slog.filters.filters 0 slog.filters.filters none with
  | some m => (listGetD slog.filters.filters m).level
  | none => slog.MinLoglevel

namespace SLA

/-- Filter-selection loop of `getFilteredLogLevel` from `src/servicelogger.go`
lines 293-304: this variant compares with strict `>` and, crucially, has no
branch assigning `foundfilter` when it is still `-1`, so `found` is never
updated from `none`. -/
def ffLoopA (facility : GoStr) (all : List FacilityFilter) : Nat → List FacilityFilter → Option Nat → Option Nat
  | _, [], found => found
  | n, f :: tl, found =>
    let found2 :=
      if f.filter.isPrefixOf facility then
        match found with
        | some m => if (listGetD all m).filter.length < f.filter.length then some n else some m
        | none => found
      else found
    ffLoopA facility all (n + 1) tl found2

/-- Embedding of `getFilteredLogLevel` from `src/servicelogger.go` lines
291-311. -/
def getFilteredLogLevel (slog : Logger) (facility : GoStr) : Int :=
  match ffLoopA facility slog.filters.filters 0 slog.filters.filters none with
  | some m => (listGetD slog.filters.filters m).level
  | none => slog.MinLoglevel

end SLA

/-- File records in the filesystem model: a size in bytes and a permission
mode. -/
structure FileRec where
  size : Nat
  mode : Nat
  deriving DecidableEq, Repr

/-- The filesystem model: an association list from file names to records. -/
abbrev FS := List (GoStr × FileRec)

/-- Models `os.Stat`: look the name up. -/
def fsStat : FS → GoStr → Option FileRec
  | [], _ => none
  | (n, r) :: tl, name => if n = name then some r else fsStat tl name

/-- Models `os.Remove` of an existing file. -/
def fsRemove : FS → GoStr → FS
  | [], _ => []
  | (n, r) :: tl, name => if n = name then fsRemove tl name else (n, r) :: fsRemove tl name

/-- Binds a name to a record, replacing any previous binding (the overwrite
semantics of `os.Rename` targets and `os.OpenFile`). -/
def fsSet (fs : FS) (name : GoStr) (r : FileRec) : FS := (name, r) :: fsRemove fs name

/-- Models an `O_APPEND` write of `k` bytes through a handle on file `name`;
a write to a no-longer-existing file goes to an orphaned inode and is not
visible in the name space. -/
def fsAppend (fs : FS) (name : GoStr) (k : Nat) : FS :=
  match fsStat fs name with
  | some r => fsSet fs name ⟨r.size + k, r.mode⟩
  | none => fs

/-- Models `fmt.Sprintf("%s.%d", filename, i)`, the name of generation `i`. -/
def genName (fname : GoStr) (i : Int) : GoStr := fname ++ '.' :: intDec i

/-- State threaded through the effectful embedded methods: the logger, the
filesystem, the log lines written so far (with the file they went to), the
lines echoed to standard output, and the exit code when the process
terminated. -/
structure MSt where
  lg : Logger
  fs : FS
  written : List (GoStr × GoStr)
  echoed : List GoStr
  exited : Option Int
  deriving DecidableEq, Repr

/-- Sets the `rotation_running` flag. -/
def setFlag (st : MSt) (b : Bool) : MSt := { st with lg := { st.lg with rotation_running := b } }

/-- Models `fmt.Sprintf("%s.%s.%s", l.prefix, source, function)`, the fully
qualified facility name. -/
def facName (l : Logger) (function source : GoStr) : GoStr :=
  l.pfx ++ gs "." ++ source ++ gs "." ++ function

/-- Models the body format `"<TAG> [%s] %s.%s %s"` shared by all logging
methods. -/
def fmtLine (tag function pfx source text : GoStr) : GoStr :=
  tag ++ gs "[" ++ function ++ gs "] " ++ pfx ++ gs "." ++ source ++ gs " " ++ text

/-- Models one `l.base.Printf` call: the `log` writer prepends a fixed-width
timestamp of `tsLen` bytes and appends a newline, and the bytes go to the
file currently named by the handle, which is `filename`. -/
def writeLn (tsLen : Nat) (st : MSt) (line : GoStr) : MSt :=
  { st with
    fs := fsAppend st.fs st.lg.filename (tsLen + line.length + 1),
    written := st.written ++ [(st.lg.filename, line)] }

/-- Placeholder text of an OS error interpolated into a log message; only the
existence of the message matters to any property proved below. -/
def errText : GoErr → GoStr
  | GoErr.statErr => gs "stat error"
  | GoErr.renameErr => gs "rename error"
  | GoErr.readFileErr => gs "read error"
  | GoErr.jsonErr => gs "json error"
  | GoErr.suffixErr => gs "unknown rotation size modifier, allowed modifiers: K, M, G, T"
  | GoErr.atoiSyntaxErr => gs "invalid syntax"
  | GoErr.rangeErr => gs "value out of range"

/-- Models the `l.LogTrace("logRotate", "servicelogger", text)` calls made
from inside `logRotate` while `rotation_running` is true: the nested
`logRotate` hits the re-entrancy guard and returns no error, so the call
reduces to the level-gated write. -/
def rotTrace (tsLen : Nat) (st : MSt) (text : GoStr) : MSt :=
  if getFilteredLogLevel st.lg (facName st.lg (gs "logRotate") (gs "servicelogger")) ≤ 1 then
    writeLn tsLen st (fmtLine (gs "TRACE   ") (gs "logRotate") st.lg.pfx (gs "servicelogger") text)
  else st

/-- The generation-shift loop of `logRotate` (`src/unnamed/part_000` lines
221-229): for `i` from `keep-1` down to `1`, rename generation `i` to
generation `i+1` when it exists.  The argument is the current loop index. -/
def shiftLoop (fname : GoStr) : Nat → FS → FS
  | 0, fs => fs
  | i + 1, fs =>
    let fs2 :=
      match fsStat fs (genName fname ((i : Int) + 1)) with
      | some r => fsSet (fsRemove fs (genName fname ((i : Int) + 1))) (genName fname ((i : Int) + 2)) r
      | none => fs
    shiftLoop fname i fs2

/-- Embedding of `logRotate` from `src/unnamed/part_000` lines 207-244.
Differences from `src/servicelogger.go` lines 183-221: that copy returns
right after a performed rotation without clearing `rotation_running` (but its
value-receiver logging methods discard the flag anyway), while this one
clears the flag after the size check completes.  The reopen after the final
rename cannot fail in the model, so the `log.Fatal` escalation there has no
branch. -/
def logRotateM (tsLen : Nat) (st : MSt) : MSt × Option GoErr :=
  if st.lg.rotate && !st.lg.rotation_running then
    let st1 := setFlag st true
    match fsStat st1.fs st1.lg.filename with
    | none => (st1, some GoErr.statErr)
    | some rec0 =>
      if st1.lg.rotatesize ≤ (rec0.size : Int) then
        let st2 := rotTrace tsLen st1 (gs "Rotating log, closing logwriter")
        let keepName := genName st2.lg.filename st2.lg.keep
        let fs3 :=
          if (fsStat st2.fs keepName).isSome then fsRemove st2.fs keepName else st2.fs
        let fs4 := shiftLoop st2.lg.filename (st2.lg.keep - 1).toNat fs3
        match fsStat fs4 st2.lg.filename with
        | none => ({ st2 with fs := fs4 }, some GoErr.renameErr)
        | some recL =>
          let fs5 := fsSet (fsRemove fs4 st2.lg.filename) (genName st2.lg.filename 1) recL
          let fs6 := fsSet fs5 st2.lg.filename ⟨0, 0o640⟩
          let st3 := rotTrace tsLen { st2 with fs := fs6 } (gs "Log rotated, reopened logwriter")
          (setFlag st3 false, none)
      else (setFlag st1 false, none)
  else (st, none)

/-- Common body of `LogTrace` … `LogError` from `src/unnamed/part_000` lines
94-151: gate on the filtered level, run the rotation check, report a rotation
error through `LogError` (the fuel bounds that nesting; the guard flag left
set by a failed rotation stops it after one level), then write the line.
`self` is the Go method's own name, passed as the `function` argument of the
nested `LogError` call. -/
def logAt : Nat → Nat → MSt → Int → GoStr → GoStr → GoStr → GoStr → GoStr → MSt
  | 0, tsLen, st, lvl, tag, _self, function, source, text =>
    if getFilteredLogLevel st.lg (facName st.lg function source) ≤ lvl then
      writeLn tsLen (logRotateM tsLen st).1
        (fmtLine tag function ((logRotateM tsLen st).1).lg.pfx source text)
    else st
  | fuel + 1, tsLen, st, lvl, tag, self, function, source, text =>
    if getFilteredLogLevel st.lg (facName st.lg function source) ≤ lvl then
      let rotated := logRotateM tsLen st
      let st2 :=
        match rotated.2 with
        | some e =>
          logAt fuel tsLen rotated.1 5 (gs "ERROR   ") (gs "LogError") self (gs "servicelogger")
            (gs "Log rotation error: " ++ errText e)
        | none => rotated.1
      writeLn tsLen st2 (fmtLine tag function st2.lg.pfx source text)
    else st

/-- Embedding of `LogTrace` (`src/unnamed/part_000` lines 94-103). -/
def LogTrace (tsLen : Nat) (st : MSt) (function source text : GoStr) : MSt :=
  logAt 2 tsLen st 1 (gs "TRACE   ") (gs "LogTrace") function source text

/-- Embedding of `LogDebug` (`src/unnamed/part_000` lines 106-115). -/
def LogDebug (tsLen : Nat) (st : MSt) (function source text : GoStr) : MSt :=
  logAt 2 tsLen st 2 (gs "DEBUG   ") (gs "LogDebug") function source text

/-- Embedding of `LogInfo` (`src/unnamed/part_000` lines 118-127). -/
def LogInfo (tsLen : Nat) (st : MSt) (function source text : GoStr) : MSt :=
  logAt 2 tsLen st 3 (gs "INFO    ") (gs "LogInfo") function source text

/-- Embedding of `LogWarn` (`src/unnamed/part_000` lines 130-139). -/
def LogWarn (tsLen : Nat) (st : MSt) (function source text : GoStr) : MSt :=
  logAt 2 tsLen st 4 (gs "WARNING ") (gs "LogWarn") function source text

/-- Embedding of `LogError` (`src/unnamed/part_000` lines 142-151). -/
def LogError (tsLen : Nat) (st : MSt) (function source text : GoStr) : MSt :=
  logAt 2 tsLen st 5 (gs "ERROR   ") (gs "LogError") function source text

/-- Embedding of `LogFatal` (`src/unnamed/part_000` lines 154-165,
behaviourally identical to `src/servicelogger.go` lines 134-141): gate on the
filtered level against `LL_FATAL = 6`; when the gate passes, rotate, write the
line, echo it to standard output and terminate with the supplied exit code. -/
def LogFatal (tsLen : Nat) (st : MSt) (function source text : GoStr) (exitcode : Int) : MSt :=
  if getFilteredLogLevel st.lg (facName st.lg function source) ≤ 6 then
    let rotated := logRotateM tsLen st
    let st2 :=
      match rotated.2 with
      | some e =>
        logAt 1 tsLen rotated.1 5 (gs "ERROR   ") (gs "LogError") (gs "LogFatal") (gs "servicelogger")
          (gs "Log rotation error: " ++ errText e)
      | none => rotated.1
    let st3 := writeLn tsLen st2 (fmtLine (gs "FATAL   ") function st2.lg.pfx source text)
    let st4 := { st3 with
      echoed := st3.echoed ++
        [gs "FATAL: [" ++ function ++ gs "] " ++ st3.lg.pfx ++ gs "." ++ source ++ gs " " ++ text] }
    { st4 with exited := some exitcode }
  else st


/-- Body of `ApplyNewSettings` after the size string has been parsed
(`src/unnamed/part_000` lines 251-285): when any field differs, announce the
change, then per field log the change at TRACE level and commit it (the file
switch also reopens the handle, creating the new file empty with mode 0640
when absent), and return `true`; otherwise return `false` and do nothing. -/
def applyBody (tsLen : Nat) (st : MSt) (nrs : Int) (newFile : GoStr) (newLevel : Int)
    (newRotation : Bool) (newKeep : Int) : MSt × Bool :=
  if newFile ≠ st.lg.filename ∨ newLevel ≠ st.lg.MinLoglevel ∨ newRotation ≠ st.lg.rotate ∨
      nrs ≠ st.lg.rotatesize ∨ newKeep ≠ st.lg.keep then
    let st1 := LogInfo tsLen st (gs "ApplyNewSettings") (gs "servicelogger")
      (gs "Logging configuration has changed, applying new configuration")
    let st2 :=
      if newFile ≠ st1.lg.filename then
        let stT := LogTrace tsLen st1 (gs "ApplyNewSettings") (gs "servicelogger")
          (gs "Filename has changed. Closing " ++ st1.lg.filename ++
            gs " and continuing logging in " ++ newFile)
        let fs2 := if (fsStat stT.fs newFile).isSome then stT.fs else fsSet stT.fs newFile ⟨0, 0o640⟩
        { stT with lg := { stT.lg with filename := newFile }, fs := fs2 }
      else st1
    let st3 :=
      if newLevel ≠ st2.lg.MinLoglevel then
        let stT := LogTrace tsLen st2 (gs "ApplyNewSettings") (gs "servicelogger")
          (gs "Log level has changed: " ++ LogLevelToString st2.lg.MinLoglevel ++
            gs " --> " ++ LogLevelToString newLevel)
        { stT with lg := { stT.lg with MinLoglevel := newLevel } }
      else st2
    let st4 :=
      if newRotation ≠ st3.lg.rotate then
        let stT :=
          if newRotation then
            LogTrace tsLen st3 (gs "ApplyNewSettings") (gs "servicelogger")
              (gs "Log rotation has been enabled")
          else
            LogTrace tsLen st3 (gs "ApplyNewSettings") (gs "servicelogger")
              (gs "Log rotation has been disabled")
        { stT with lg := { stT.lg with rotate := newRotation } }
      else st3
    let st5 :=
      if nrs ≠ st4.lg.rotatesize then
        let stT := LogTrace tsLen st4 (gs "ApplyNewSettings") (gs "servicelogger")
          (gs "Log size limit has changed: " ++ intDec st4.lg.rotatesize ++
            gs " bytes --> " ++ intDec nrs ++ gs " bytes")
        { stT with lg := { stT.lg with rotatesize := nrs } }
      else st4
    let st6 :=
      if newKeep ≠ st5.lg.keep then
        let stT := LogTrace tsLen st5 (gs "ApplyNewSettings") (gs "servicelogger")
          (gs "Number of log files to keep has changed: " ++ intDec st5.lg.keep ++
            gs " --> " ++ intDec newKeep)
        { stT with lg := { stT.lg with keep := newKeep } }
      else st5
    (st6, true)
  else (st, false)

/-- Embedding of `ApplyNewSettings` (`src/unnamed/part_000` lines 246-286,
identical logic in `src/servicelogger.go` lines 223-263): parse the new size
string first; a parse failure raises `LogFatal` with exit code 222 — when the
fatal gate passes, `os.Exit` never returns, and because nothing can run after
the exit the returned `false` is unobservable in Go; when the FATAL line is
filtered out, Go falls through with the zero value `nrs = 0`, as modelled. -/
def ApplyNewSettings (tsLen : Nat) (st : MSt) (newFile : GoStr) (newLevel : Int)
    (newRotation : Bool) (newRotSize : GoStr) (newKeep : Int) : MSt × Bool :=
  match logSizeStringToLogSizeInt64 newRotSize with
  | .error e =>
    let stF := LogFatal tsLen st (gs "ApplyNewSettings") (gs "servicelogger")
      (gs "Failed to apply new settings: " ++ errText e) 222
    if stF.exited.isSome then (stF, false)
    else applyBody tsLen stF 0 newFile newLevel newRotation newKeep
  | .ok nrs => applyBody tsLen st nrs newFile newLevel newRotation newKeep

/-- Result of the embedded constructor: a configuration error returned to the
caller, a `log.Fatal` process abort, or a constructed logger. -/
inductive NewRes where
  | confErr : NewRes
  | fatalExit : NewRes
  | mk (l : Logger) : NewRes
  deriving DecidableEq, Repr

/-- Embedding of `New` (`src/unnamed/part_000` lines 70-91, identical in
`src/servicelogger.go` lines 70-91).  The second component records whether
the destination log file was opened; the keep-count check precedes both the
size parsing and the open.  The open itself cannot fail in the model, so the
`log.Fatal` branch after it has no image. -/
def New (pfx0 filename0 : GoStr) (minloglevel : Int) (rotate0 : Bool) (rotatesize0 : GoStr)
    (keep0 : Int) : NewRes × Bool :=
  if keep0 < 2 ∧ rotate0 then (NewRes.confErr, false)
  else
    match logSizeStringToLogSizeInt64 rotatesize0 with
    | .error _ => (NewRes.fatalExit, false)
    | .ok rs =>
      (NewRes.mk
        { pfx := pfx0, MinLoglevel := minloglevel, filename := filename0, rotate := rotate0,
          rotatesize := rs, keep := keep0, rotation_running := false,
          filters := { count := 0, filters := [] } }, true)

/-- Embedding of `AddFacilityFilter` (`src/unnamed/part_000` lines 288-295):
append the new filter and bump the counter. -/
def AddFacilityFilter (slog : Logger) (filtername : GoStr) (filterlevel : Int) : Logger :=
  { slog with
    filters := { count := slog.filters.count + 1,
                 filters := slog.filters.filters ++ [⟨filtername, filterlevel⟩] } }

/-- Embedding of `LoadFacilityFilters` (`src/unnamed/part_000` lines 297-312,
identical in `src/servicelogger.go` lines 274-289).  `os.ReadFile` is modelled
by its result and `encoding/json.Unmarshal` by a parse function into the
entry list of the decoded map (Go's map iteration order is an arbitrary
permutation, which no property below depends on): a failure of either is
returned to the caller before any filter is touched; on success one filter is
added per entry, the level name going through `StringToLogLevel`. -/
def LoadFacilityFilters (slog : Logger) (readRes : Except GoErr (List Char))
    (unmarshal : List Char → Except GoErr (List (GoStr × GoStr))) : Logger × Option GoErr :=
  match readRes with
  | .error e => (slog, some e)
  | .ok fcontents =>
    match unmarshal fcontents with
    | .error e => (slog, some e)
    | .ok lfilters =>
      (lfilters.foldl (fun l kv => AddFacilityFilter l kv.1 (StringToLogLevel kv.2)) slog, none)

/-! Helper lemmas: decimal rendering and parsing. -/

theorem digitsVal_append (acc : Nat) (xs ys : GoStr) :
    digitsVal acc (xs ++ ys) =
      match digitsVal acc xs with
      | some a => digitsVal a ys
      | none => none := by
  induction xs generalizing acc with
  | nil => simp [digitsVal]
  | cons c tl ih =>
    simp only [List.cons_append, digitsVal]
    split
    · exact ih _
    · rfl

theorem digitsVal_digitCh (a m : Nat) (h : m < 10) :
    digitsVal a [digitCh m] = some (a * 10 + m) := by
  interval_cases m <;> rfl

theorem digitsVal_natDecimalAux :
    ∀ f n acc : Nat, n < f →
      digitsVal acc (natDecimalAux f n) = some (acc * 10 ^ (natDecimalAux f n).length + n) := by
  intro f
  induction f with
  | zero => intro n acc h; exact absurd h (Nat.not_lt_zero n)
  | succ f ih =>
    intro n acc h
    by_cases h10 : n < 10
    · simp only [natDecimalAux, if_pos h10]
      rw [digitsVal_digitCh acc n h10]
      norm_num
    · simp only [natDecimalAux, if_neg h10]
      have hdiv : n / 10 < f := by
        have h1 : n / 10 < n := Nat.div_lt_self (by omega) (by omega)
        omega
      rw [digitsVal_append, ih (n / 10) acc hdiv]
      have hm : n % 10 < 10 := Nat.mod_lt _ (by omega)
      show digitsVal (acc * 10 ^ (natDecimalAux f (n / 10)).length + n / 10) [digitCh (n % 10)] = _
      rw [digitsVal_digitCh _ _ hm]
      congr 1
      rw [List.length_append, List.length_singleton]
      calc (acc * 10 ^ (natDecimalAux f (n / 10)).length + n / 10) * 10 + n % 10
          = acc * (10 ^ (natDecimalAux f (n / 10)).length * 10) + (10 * (n / 10) + n % 10) := by
            ring
        _ = acc * 10 ^ ((natDecimalAux f (n / 10)).length + 1) + n := by
            rw [← pow_succ]
            have hdm : 10 * (n / 10) + n % 10 = n := by omega
            rw [hdm]

theorem natDecimal_ne_nil (n : Nat) : natDecimal n ≠ [] := by
  unfold natDecimal natDecimalAux
  split
  · exact List.cons_ne_nil _ _
  · exact fun h => absurd (List.append_eq_nil.mp h).2 (List.cons_ne_nil _ _)

theorem digitsToNat_natDecimal (n : Nat) : digitsToNat (natDecimal n) = some n := by
  have h := digitsVal_natDecimalAux (n + 1) n 0 (Nat.lt_succ_self n)
  cases hnd : natDecimal n with
  | nil => exact absurd hnd (natDecimal_ne_nil n)
  | cons c tl =>
    have h2 : digitsVal 0 (c :: tl) = some (0 * 10 ^ (c :: tl).length + n) := by
      rw [← hnd]; exact h
    simpa [digitsToNat] using h2

theorem natDecimal_inj {a b : Nat} (h : natDecimal a = natDecimal b) : a = b := by
  have ha := digitsToNat_natDecimal a
  rw [h, digitsToNat_natDecimal b] at ha
  exact (Option.some.inj ha).symm

theorem intDec_nonneg (i : Int) (h : 0 ≤ i) : intDec i = natDecimal i.toNat := by
  unfold intDec
  rw [if_neg (not_lt.2 h)]

theorem go_atoi_natDecimal (n : Nat) (h : (n : Int) < 2 ^ 63) :
    go_atoi (natDecimal n) = .ok (n : Int) := by
  unfold go_atoi
  rw [digitsToNat_natDecimal]
  show rangeChk (n : Int) = .ok (n : Int)
  unfold rangeChk
  rw [if_pos ⟨le_trans (by norm_num) (Int.natCast_nonneg n), h⟩]

theorem go_atoi_intDec (m : Int) (h1 : -(2 ^ 63) ≤ m) (h2 : m < 2 ^ 63) :
    go_atoi (intDec m) = .ok m := by
  by_cases hm : m < 0
  · unfold intDec
    rw [if_pos hm]
    have hnone : digitsToNat ('-' :: natDecimal m.natAbs) = none := by
      cases hnd : natDecimal m.natAbs with
      | nil => exact absurd hnd (natDecimal_ne_nil _)
      | cons c tl => rfl
    unfold go_atoi
    rw [hnone]
    show (match digitsToNat (natDecimal m.natAbs) with
      | some n => rangeChk (-(n : Int))
      | none => Except.error GoErr.atoiSyntaxErr) = .ok m
    rw [digitsToNat_natDecimal]
    show rangeChk (-(m.natAbs : Int)) = .ok m
    have habs : (m.natAbs : Int) = -m := by
      rw [Int.natCast_natAbs, abs_of_neg hm]
    unfold rangeChk
    rw [habs, neg_neg, if_pos ⟨h1, h2⟩]
  · rw [intDec_nonneg m (not_lt.mp hm)]
    have h3 : ((m.toNat : Nat) : Int) = m := Int.toNat_of_nonneg (not_lt.mp hm)
    rw [go_atoi_natDecimal m.toNat (by rw [h3]; exact h2), h3]

theorem wrap64_eq_self (z : Int) (h1 : -(2 ^ 63) ≤ z) (h2 : z < 2 ^ 63) : wrap64 z = z := by
  unfold wrap64
  rw [Int.emod_eq_of_lt (by omega) (by omega)]
  ring

/-! Helper lemmas: the filesystem model. -/

theorem fsStat_fsRemove (fs : FS) (a b : GoStr) :
    fsStat (fsRemove fs a) b = if a = b then none else fsStat fs b := by
  induction fs with
  | nil => simp only [fsRemove, fsStat]; split <;> rfl
  | cons p tl ih =>
    obtain ⟨n, r⟩ := p
    simp only [fsRemove, fsStat]
    by_cases hna : n = a
    · rw [if_pos hna, ih]
      by_cases hab : a = b
      · rw [if_pos hab, if_pos hab]
      · rw [if_neg hab, if_neg hab, if_neg (by rw [hna]; exact fun h => hab h)]
    · rw [if_neg hna]
      by_cases hnb : n = b
      · have hab : ¬ a = b := fun h => hna (by rw [hnb, h])
        simp only [fsStat, if_pos hnb, if_neg hab]
      · simp only [fsStat, if_neg hnb, ih]

theorem fsStat_fsSet (fs : FS) (a : GoStr) (r : FileRec) (b : GoStr) :
    fsStat (fsSet fs a r) b = if a = b then some r else fsStat fs b := by
  simp only [fsSet, fsStat, fsStat_fsRemove]
  by_cases hab : a = b
  · rw [if_pos hab, if_pos hab]
  · rw [if_neg hab, if_neg hab, if_neg hab]

/-! Helper lemmas: generation names. -/

/-- Generation names at natural-number indices, the only indices that occur in
the rotation loop. -/
def genN (fname : GoStr) (j : Nat) : GoStr := genName fname (j : Int)

theorem genN_eq (fname : GoStr) (j : Nat) : genN fname j = fname ++ '.' :: natDecimal j := by
  unfold genN genName
  rw [intDec_nonneg _ (Int.natCast_nonneg j), Int.toNat_natCast]

theorem genN_succ (fname : GoStr) (i : Nat) :
    genName fname ((i : Int) + 1) = genN fname (i + 1) := by
  unfold genN
  norm_num

theorem genN_succ2 (fname : GoStr) (i : Nat) :
    genName fname ((i : Int) + 2) = genN fname (i + 2) := by
  unfold genN
  norm_num

theorem genN_inj {fname : GoStr} {i j : Nat} (h : genN fname i = genN fname j) : i = j := by
  rw [genN_eq, genN_eq] at h
  have h2 := List.append_cancel_left h
  exact natDecimal_inj (List.cons.inj h2).2

theorem genN_ne_base (fname : GoStr) (j : Nat) : genN fname j ≠ fname := by
  intro h
  have h2 := congrArg List.length h
  rw [genN_eq] at h2
  simp only [List.length_append, List.length_cons] at h2
  omega

/-! Helper lemmas: the generation-shift loop. -/

theorem shiftLoop_succ (fname : GoStr) (k : Nat) (fs : FS) :
    shiftLoop fname (k + 1) fs =
      shiftLoop fname k
        (match fsStat fs (genN fname (k + 1)) with
         | some r => fsSet (fsRemove fs (genN fname (k + 1))) (genN fname (k + 2)) r
         | none => fs) := by
  rw [← genN_succ, ← genN_succ2]
  rfl

theorem shiftLoop_spec (fname : GoStr) :
    ∀ (k : Nat) (fs : FS), fsStat fs (genN fname (k + 1)) = none →
      (∀ j : Nat, 2 ≤ j → j ≤ k + 1 →
        fsStat (shiftLoop fname k fs) (genN fname j) = fsStat fs (genN fname (j - 1)))
      ∧ (1 ≤ k → fsStat (shiftLoop fname k fs) (genN fname 1) = none)
      ∧ (∀ name : GoStr, (∀ j : Nat, 1 ≤ j → j ≤ k + 1 → name ≠ genN fname j) →
        fsStat (shiftLoop fname k fs) name = fsStat fs name) := by
  intro k
  induction k with
  | zero =>
    intro fs h
    exact ⟨fun j h2 h1 => absurd (le_trans h2 h1) (by norm_num),
      fun h1 => absurd h1 (by norm_num), fun name _ => rfl⟩
  | succ k ih =>
    intro fs h
    obtain ⟨fs2, hfs2, hF1, hF2, hF3⟩ :
        ∃ fs2, shiftLoop fname (k + 1) fs = shiftLoop fname k fs2 ∧
          fsStat fs2 (genN fname (k + 1)) = none ∧
          fsStat fs2 (genN fname (k + 2)) = fsStat fs (genN fname (k + 1)) ∧
          (∀ name, name ≠ genN fname (k + 1) → name ≠ genN fname (k + 2) →
            fsStat fs2 name = fsStat fs name) := by
      cases hsrc : fsStat fs (genN fname (k + 1)) with
      | none =>
        refine ⟨fs, ?_, hsrc, ?_, fun name _ _ => rfl⟩
        · rw [shiftLoop_succ, hsrc]
        · exact h
      | some r =>
        refine ⟨fsSet (fsRemove fs (genN fname (k + 1))) (genN fname (k + 2)) r, ?_, ?_, ?_, ?_⟩
        · rw [shiftLoop_succ, hsrc]
        · rw [fsStat_fsSet, if_neg (fun hEq => by have := genN_inj hEq; omega),
            fsStat_fsRemove, if_pos rfl]
        · rw [fsStat_fsSet, if_pos rfl]
        · intro name hn1 hn2
          rw [fsStat_fsSet, if_neg (fun hEq => hn2 hEq.symm),
            fsStat_fsRemove, if_neg (fun hEq => hn1 hEq.symm)]
    obtain ⟨ih1, ih2, ih3⟩ := ih fs2 hF1
    rw [hfs2]
    refine ⟨?_, ?_, ?_⟩
    · intro j h2 hj
      by_cases hjk : j ≤ k + 1
      · rw [ih1 j h2 hjk]
        exact hF3 _ (fun hEq => by have := genN_inj hEq; omega)
          (fun hEq => by have := genN_inj hEq; omega)
      · have hje : j = k + 2 := by omega
        subst hje
        rw [ih3 (genN fname (k + 2)) (fun i h1 hi2 hEq => by have := genN_inj hEq; omega), hF2]
        rfl
    · intro hx
      by_cases hk : 1 ≤ k
      · exact ih2 hk
      · have hk0 : k = 0 := by omega
        subst hk0
        exact hF1
    · intro name hn
      rw [ih3 name (fun j h1 h2 => hn j h1 (by omega))]
      exact hF3 name (hn (k + 1) (by omega) (by omega)) (hn (k + 2) (by omega) (by omega))

/-! Helper lemmas: the filter-selection loops. -/

theorem ffLoopA_none (facility : GoStr) (all : List FacilityFilter) :
    ∀ (rest : List FacilityFilter) (n : Nat), SLA.ffLoopA facility all n rest none = none := by
  intro rest
  induction rest with
  | nil => intro n; rfl
  | cons f tl ih =>
    intro n
    show SLA.ffLoopA facility all (n + 1) tl
      (if f.filter.isPrefixOf facility then none else none) = none
    rw [ite_self]
    exact ih (n + 1)

theorem listGetD_mem (l : List FacilityFilter) :
    ∀ n : Nat, n < l.length → listGetD l n ∈ l := by
  induction l with
  | nil => intro n h; exact absurd h (by simp)
  | cons f tl ih =>
    intro n h
    cases n with
    | zero => exact List.mem_cons_self f tl
    | succ n => exact List.mem_cons_of_mem f (ih n (by simpa using h))

theorem ffLoopB_cons (facility : GoStr) (all : List FacilityFilter) (n : Nat)
    (f : FacilityFilter) (tl : List FacilityFilter) (found : Option Nat) :
    ffLoopB facility all n (f :: tl) found =
      ffLoopB facility all (n + 1) tl
        (if f.filter.isPrefixOf facility then
          match found with
          | some m0 =>
            if (listGetD all m0).filter.length ≤ f.filter.length then some n else some m0
          | none => some n
        else found) := rfl

theorem ffLoopB_bound (facility : GoStr) (all : List FacilityFilter) :
    ∀ (rest : List FacilityFilter) (n : Nat) (found : Option Nat),
      n + rest.length ≤ all.length →
      (∀ m, found = some m → m < all.length) →
      ∀ m, ffLoopB facility all n rest found = some m → m < all.length := by
  intro rest
  induction rest with
  | nil =>
    intro n found _ hf m h
    exact hf m h
  | cons f tl ih =>
    intro n found hlen hf m h
    have hn : n < all.length := by
      simp only [List.length_cons] at hlen
      omega
    have hlen2 : n + 1 + tl.length ≤ all.length := by
      simp only [List.length_cons] at hlen
      omega
    rw [ffLoopB_cons] at h
    refine ih (n + 1) _ hlen2 ?_ m h
    intro m0 hm0
    by_cases hp : f.filter.isPrefixOf facility
    · rw [if_pos hp] at hm0
      cases hfound : found with
      | some m1 =>
        rw [hfound] at hm0
        have hm1 : (if (listGetD all m1).filter.length ≤ f.filter.length then some n
            else some m1) = some m0 := hm0
        by_cases hcmp : (listGetD all m1).filter.length ≤ f.filter.length
        · rw [if_pos hcmp] at hm1
          rw [← Option.some.inj hm1]
          exact hn
        · rw [if_neg hcmp] at hm1
          rw [← Option.some.inj hm1]
          exact hf m1 hfound
      | none =>
        rw [hfound] at hm0
        have hm1 : some n = some m0 := hm0
        rw [← Option.some.inj hm1]
        exact hn
    · rw [if_neg hp] at hm0
      exact hf m0 hm0

theorem getFilteredLogLevel_le6 (l : Logger) (fac : GoStr)
    (hf : ∀ f ∈ l.filters.filters, f.level ≤ 6) (hm : l.MinLoglevel ≤ 6) :
    getFilteredLogLevel l fac ≤ 6 := by
  unfold getFilteredLogLevel
  cases hres : ffLoopB fac l.filters.filters 0 l.filters.filters none with
  | none => exact hm
  | some m =>
    have hb : m < l.filters.filters.length :=
      ffLoopB_bound fac l.filters.filters l.filters.filters 0 none (by omega)
        (fun m h => by exact absurd h (by simp)) m hres
    exact hf _ (listGetD_mem _ m hb)

/-! Helper lemmas: logger-field preservation through the effectful methods. -/

theorem logRotateM_lg (tsLen : Nat) (st : MSt) :
    ((logRotateM tsLen st).1).lg =
      { st.lg with rotation_running := ((logRotateM tsLen st).1).lg.rotation_running } := by
  unfold logRotateM rotTrace writeLn setFlag
  repeat (first | rfl | split | dsimp only)

theorem logRotateM_pfx (tsLen : Nat) (st : MSt) :
    ((logRotateM tsLen st).1).lg.pfx = st.lg.pfx := by
  rw [logRotateM_lg]

theorem logRotateM_filename (tsLen : Nat) (st : MSt) :
    ((logRotateM tsLen st).1).lg.filename = st.lg.filename := by
  rw [logRotateM_lg]

theorem writeLn_lg (tsLen : Nat) (st : MSt) (line : GoStr) : (writeLn tsLen st line).lg = st.lg :=
  rfl

theorem logAt_zero (tsLen : Nat) (st : MSt) (lvl : Int) (tag self function source text : GoStr) :
    logAt 0 tsLen st lvl tag self function source text =
      if getFilteredLogLevel st.lg (facName st.lg function source) ≤ lvl then
        writeLn tsLen (logRotateM tsLen st).1
          (fmtLine tag function ((logRotateM tsLen st).1).lg.pfx source text)
      else st := rfl

theorem logAt_succ (fuel tsLen : Nat) (st : MSt) (lvl : Int)
    (tag self function source text : GoStr) :
    logAt (fuel + 1) tsLen st lvl tag self function source text =
      if getFilteredLogLevel st.lg (facName st.lg function source) ≤ lvl then
        let st2 :=
          match (logRotateM tsLen st).2 with
          | some e =>
            logAt fuel tsLen (logRotateM tsLen st).1 5 (gs "ERROR   ") (gs "LogError") self
              (gs "servicelogger") (gs "Log rotation error: " ++ errText e)
          | none => (logRotateM tsLen st).1
        writeLn tsLen st2 (fmtLine tag function st2.lg.pfx source text)
      else st := rfl

theorem logAt_pfx :
    ∀ (fuel tsLen : Nat) (st : MSt) (lvl : Int) (tag self function source text : GoStr),
      (logAt fuel tsLen st lvl tag self function source text).lg.pfx = st.lg.pfx := by
  intro fuel
  induction fuel with
  | zero =>
    intro tsLen st lvl tag self function source text
    rw [logAt_zero]
    split
    · rw [writeLn_lg, logRotateM_pfx]
    · rfl
  | succ fuel ih =>
    intro tsLen st lvl tag self function source text
    rw [logAt_succ]
    split
    · cases hrot : (logRotateM tsLen st).2 with
      | some e =>
        simp only [hrot, writeLn_lg, ih, logRotateM_pfx]
      | none =>
        simp only [hrot, writeLn_lg, logRotateM_pfx]
    · rfl

theorem logAt_filename :
    ∀ (fuel tsLen : Nat) (st : MSt) (lvl : Int) (tag self function source text : GoStr),
      (logAt fuel tsLen st lvl tag self function source text).lg.filename = st.lg.filename := by
  intro fuel
  induction fuel with
  | zero =>
    intro tsLen st lvl tag self function source text
    rw [logAt_zero]
    split
    · rw [writeLn_lg, logRotateM_filename]
    · rfl
  | succ fuel ih =>
    intro tsLen st lvl tag self function source text
    rw [logAt_succ]
    split
    · cases hrot : (logRotateM tsLen st).2 with
      | some e =>
        simp only [hrot, writeLn_lg, ih, logRotateM_filename]
      | none =>
        simp only [hrot, writeLn_lg, logRotateM_filename]
    · rfl

/-! Claim C1: longest-prefix filter resolution. -/

/-- Fixture for C1: minimum level INFO and the two filters of the spec's
longest-prefix example. -/
def c1Logger : Logger :=
  { pfx := gs "svc", MinLoglevel := 3, filename := gs "app.log", rotate := false,
    rotatesize := 0, keep := 0, rotation_running := false,
    filters := { count := 2, filters := [⟨gs "svc", 2⟩, ⟨gs "svc.db", 5⟩] } }

/-- C1 (code bug in `src/servicelogger.go`): its `getFilteredLogLevel` never
records the first matching filter (`foundfilter` is only updated when it is
already non-negative), so it returns the configured minimum level for every
filter set and every facility name; on the spec's own example it returns
INFO = 3 where the claim requires ERROR = 5.  The `src/unnamed/part_000`
variant, embedded as `getFilteredLogLevel`, does return 5 there. -/
theorem c1_filter_resolution :
    (∀ (l : Logger) (facility : GoStr), SLA.getFilteredLogLevel l facility = l.MinLoglevel) ∧
    SLA.getFilteredLogLevel c1Logger (gs "svc.db.query") = 3 ∧
    getFilteredLogLevel c1Logger (gs "svc.db.query") = 5 ∧
    c1Logger.MinLoglevel = 3 := by
  refine ⟨?_, by decide, by decide, rfl⟩
  intro l facility
  unfold SLA.getFilteredLogLevel
  rw [ffLoopA_none]

/-! Claim C10: the level round-trip. -/

/-- C10: for each of the six log levels, rendering it with `LogLevelToString`
and parsing it back with `StringToLogLevel` returns the same level. -/
theorem c10_level_roundtrip :
    StringToLogLevel (LogLevelToString 1) = 1 ∧
    StringToLogLevel (LogLevelToString 2) = 2 ∧
    StringToLogLevel (LogLevelToString 3) = 3 ∧
    StringToLogLevel (LogLevelToString 4) = 4 ∧
    StringToLogLevel (LogLevelToString 5) = 5 ∧
    StringToLogLevel (LogLevelToString 6) = 6 := by
  decide

/-! Claim C9: level-name parsing. -/

/-- C9 counterexample: the mixed casing "TRaCE" is not recognised; it falls to
the default INFO = 3, not TRACE = 1, so `StringToLogLevel` is not fully
case-insensitive. -/
theorem c9_counterexample : StringToLogLevel (gs "TRaCE") = 3 ∧ (3 : Int) ≠ 1 := by
  constructor
  · decide
  · decide

/-- The eighteen spellings recognised by the `StringToLogLevel` switch. -/
def recognizedLevelStrings : List GoStr :=
  [gs "TRACE", gs "Trace", gs "trace", gs "DEBUG", gs "Debug", gs "debug",
   gs "INFO", gs "Info", gs "info", gs "WARN", gs "Warn", gs "warn",
   gs "ERROR", gs "Error", gs "error", gs "FATAL", gs "Fatal", gs "fatal"]

/-- C9 amended: `StringToLogLevel` maps exactly the three spellings all-caps,
capitalised and all-lowercase of each level name to that level, and every
other string — including every other mixed casing — to INFO = 3 without an
error. -/
theorem c9_amended_levels :
    (StringToLogLevel (gs "TRACE") = 1 ∧ StringToLogLevel (gs "Trace") = 1 ∧
      StringToLogLevel (gs "trace") = 1 ∧
     StringToLogLevel (gs "DEBUG") = 2 ∧ StringToLogLevel (gs "Debug") = 2 ∧
      StringToLogLevel (gs "debug") = 2 ∧
     StringToLogLevel (gs "INFO") = 3 ∧ StringToLogLevel (gs "Info") = 3 ∧
      StringToLogLevel (gs "info") = 3 ∧
     StringToLogLevel (gs "WARN") = 4 ∧ StringToLogLevel (gs "Warn") = 4 ∧
      StringToLogLevel (gs "warn") = 4 ∧
     StringToLogLevel (gs "ERROR") = 5 ∧ StringToLogLevel (gs "Error") = 5 ∧
      StringToLogLevel (gs "error") = 5 ∧
     StringToLogLevel (gs "FATAL") = 6 ∧ StringToLogLevel (gs "Fatal") = 6 ∧
      StringToLogLevel (gs "fatal") = 6) ∧
    (∀ s : GoStr, s ∉ recognizedLevelStrings → StringToLogLevel s = 3) := by
  refine ⟨by decide, ?_⟩
  intro s hs
  simp only [recognizedLevelStrings, List.mem_cons, List.not_mem_nil, or_false, not_or] at hs
  obtain ⟨h1, h2, h3, h4, h5, h6, h7, h8, h9, h10, h11, h12, h13, h14, h15, h16, h17, h18⟩ := hs
  unfold StringToLogLevel
  simp only [h1, h2, h3, h4, h5, h6, h7, h8, h9, h10, h11, h12, h13, h14, h15, h16, h17, h18,
    or_self, if_false]

/-- Witness for C9's amended claim at the counterexample's own input. -/
theorem c9_amended_levels_witness : StringToLogLevel (gs "WArn") = 3 :=
  c9_amended_levels.2 (gs "WArn") (by decide)

/-! Claim C3: rotation-size parsing. -/

/-- C3 counterexample: the magnitude 8589934592 = 2^33 with suffix G parses
successfully, but the Go `int` multiplication wraps 2^63 to -2^63, so the
result is not the magnitude times 1024^3. -/
theorem c3_counterexample :
    logSizeStringToLogSizeInt64 (gs "8589934592G") = .ok (-9223372036854775808) ∧
    (-9223372036854775808 : Int) ≠ 8589934592 * 1073741824 := by
  constructor
  · decide
  · decide

/-- C3 amended: a size string is an integer magnitude followed by exactly one
of K/M/G/T; its value is the magnitude times 1024, 1024^2, 1024^3 or 1024^4
reduced into the signed 64-bit range by two's-complement wrap-around, which
equals the exact product whenever that product fits in int64 (so "10K" is
10240, "1M" is 1048576, "2G" is 2147483648); any other final character
(including the no-suffix case) is a parse error, and a magnitude rejected by
`strconv.Atoi` (such as in "abcK") propagates its parse error. -/
theorem c3_amended_parsing :
    (∀ m : Int, -(2 ^ 63) ≤ m → m < 2 ^ 63 →
      logSizeStringToLogSizeInt64 (intDec m ++ ['K']) = .ok (wrap64 (m * 1024)) ∧
      logSizeStringToLogSizeInt64 (intDec m ++ ['M']) = .ok (wrap64 (m * 1048576)) ∧
      logSizeStringToLogSizeInt64 (intDec m ++ ['G']) = .ok (wrap64 (m * 1073741824)) ∧
      logSizeStringToLogSizeInt64 (intDec m ++ ['T']) = .ok (wrap64 (m * 1099511627776))) ∧
    (∀ z : Int, -(2 ^ 63) ≤ z → z < 2 ^ 63 → wrap64 z = z) ∧
    logSizeStringToLogSizeInt64 (gs "10K") = .ok 10240 ∧
    logSizeStringToLogSizeInt64 (gs "1M") = .ok 1048576 ∧
    logSizeStringToLogSizeInt64 (gs "2G") = .ok 2147483648 ∧
    (∀ s : GoStr,
      (∀ c : Char, s.getLast? = some c → c ≠ 'K' ∧ c ≠ 'M' ∧ c ≠ 'G' ∧ c ≠ 'T') →
      logSizeStringToLogSizeInt64 s = .error GoErr.suffixErr) ∧
    (∀ (s : GoStr) (e : GoErr), s.getLast? = some 'K' → go_atoi s.dropLast = .error e →
      logSizeStringToLogSizeInt64 s = .error e) ∧
    isErrE (logSizeStringToLogSizeInt64 (gs "10X")) = true ∧
    isErrE (logSizeStringToLogSizeInt64 (gs "abcK")) = true ∧
    isErrE (logSizeStringToLogSizeInt64 (gs "10")) = true := by
  refine ⟨?_, wrap64_eq_self, by decide, by decide, by decide, ?_, ?_, by decide, by decide,
    by decide⟩
  · intro m hm1 hm2
    have hatoi := go_atoi_intDec m hm1 hm2
    refine ⟨?_, ?_, ?_, ?_⟩
    · unfold logSizeStringToLogSizeInt64
      rw [if_pos (by rw [List.getLast?_concat])]
      unfold atoiMul
      rw [List.dropLast_concat, hatoi]
    · unfold logSizeStringToLogSizeInt64
      rw [if_neg (by rw [List.getLast?_concat]; decide),
        if_pos (by rw [List.getLast?_concat])]
      unfold atoiMul
      rw [List.dropLast_concat, hatoi]
    · unfold logSizeStringToLogSizeInt64
      rw [if_neg (by rw [List.getLast?_concat]; decide),
        if_neg (by rw [List.getLast?_concat]; decide),
        if_pos (by rw [List.getLast?_concat])]
      unfold atoiMul
      rw [List.dropLast_concat, hatoi]
    · unfold logSizeStringToLogSizeInt64
      rw [if_neg (by rw [List.getLast?_concat]; decide),
        if_neg (by rw [List.getLast?_concat]; decide),
        if_neg (by rw [List.getLast?_concat]; decide),
        if_pos (by rw [List.getLast?_concat])]
      unfold atoiMul
      rw [List.dropLast_concat, hatoi]
  · intro s h
    unfold logSizeStringToLogSizeInt64
    rw [if_neg (fun heq => (h 'K' heq).1 rfl), if_neg (fun heq => (h 'M' heq).2.1 rfl),
      if_neg (fun heq => (h 'G' heq).2.2.1 rfl), if_neg (fun heq => (h 'T' heq).2.2.2 rfl)]
  · intro s e hK hatoi
    unfold logSizeStringToLogSizeInt64
    rw [if_pos hK]
    unfold atoiMul
    rw [hatoi]

/-- Witness for C3's amended claim: magnitude 10 with suffix K, and a
rejected suffix. -/
theorem c3_amended_parsing_witness :
    logSizeStringToLogSizeInt64 (intDec 10 ++ ['K']) = .ok (wrap64 (10 * 1024)) ∧
    logSizeStringToLogSizeInt64 (gs "9Q") = .error GoErr.suffixErr := by
  constructor
  · exact (c3_amended_parsing.1 10 (by decide) (by decide)).1
  · refine c3_amended_parsing.2.2.2.2.2.1 (gs "9Q") ?_
    intro c hc
    rw [show (gs "9Q").getLast? = some 'Q' from rfl] at hc
    cases Option.some.inj hc
    exact ⟨by decide, by decide, by decide, by decide⟩

/-! Claim C6: constructor validation. -/

/-- C6: with rotation enabled and a keep count below 2, `New` returns the
configuration error before opening the log file (second component `false`),
and a successful construction with rotation enabled implies the keep count is
at least 2. -/
theorem c6_new_validation :
    (∀ (p f : GoStr) (ml : Int) (rs : GoStr) (k : Int), k < 2 →
      New p f ml true rs k = (NewRes.confErr, false)) ∧
    (∀ (p f : GoStr) (ml : Int) (rot : Bool) (rs : GoStr) (k : Int) (l : Logger) (b : Bool),
      New p f ml rot rs k = (NewRes.mk l, b) → rot = true → 2 ≤ k) := by
  constructor
  · intro p f ml rs k hk
    unfold New
    rw [if_pos ⟨hk, rfl⟩]
  · intro p f ml rot rs k l b h hrot
    subst hrot
    by_contra hlt
    push_neg at hlt
    unfold New at h
    rw [if_pos ⟨hlt, rfl⟩] at h
    simp at h

/-- Witness for C6 at a concrete rejected configuration. -/
theorem c6_new_validation_witness :
    New (gs "svc") (gs "app.log") 3 true (gs "10K") 1 = (NewRes.confErr, false) :=
  c6_new_validation.1 (gs "svc") (gs "app.log") 3 (gs "10K") 1 (by decide)

/-! Claim C8: loading facility filters. -/

/-- Helper for C8: folding `AddFacilityFilter` over the decoded entries
appends one filter per entry after the existing filters. -/
theorem load_foldl_append :
    ∀ (entries : List (GoStr × GoStr)) (slog : Logger),
      (entries.foldl (fun l kv => AddFacilityFilter l kv.1 (StringToLogLevel kv.2))
          slog).filters.filters =
        slog.filters.filters ++
          entries.map (fun kv => (⟨kv.1, StringToLogLevel kv.2⟩ : FacilityFilter)) := by
  intro entries
  induction entries with
  | nil => intro slog; simp
  | cons kv tl ih =>
    intro slog
    rw [List.foldl_cons, ih, List.map_cons]
    show (AddFacilityFilter slog kv.1 (StringToLogLevel kv.2)).filters.filters ++ _ = _
    rw [show (AddFacilityFilter slog kv.1 (StringToLogLevel kv.2)).filters.filters =
      slog.filters.filters ++ [⟨kv.1, StringToLogLevel kv.2⟩] from rfl, List.append_assoc]
    rfl

/-- C8: a read failure or a JSON decode failure is returned to the caller
with the logger unmodified; on success one filter is appended per decoded
entry, after any previously loaded filters. -/
theorem c8_load_filters :
    ∀ (slog : Logger) (um : List Char → Except GoErr (List (GoStr × GoStr))) (bs : List Char),
      (∀ e : GoErr, LoadFacilityFilters slog (.error e) um = (slog, some e)) ∧
      (∀ e : GoErr, um bs = .error e → LoadFacilityFilters slog (.ok bs) um = (slog, some e)) ∧
      (∀ entries : List (GoStr × GoStr), um bs = .ok entries →
        LoadFacilityFilters slog (.ok bs) um =
          (entries.foldl (fun l kv => AddFacilityFilter l kv.1 (StringToLogLevel kv.2)) slog,
            none) ∧
        (entries.foldl (fun l kv => AddFacilityFilter l kv.1 (StringToLogLevel kv.2))
            slog).filters.filters =
          slog.filters.filters ++
            entries.map (fun kv => (⟨kv.1, StringToLogLevel kv.2⟩ : FacilityFilter))) := by
  intro slog um bs
  refine ⟨fun e => rfl, fun e he => ?_, fun entries he => ⟨?_, load_foldl_append entries slog⟩⟩
  · unfold LoadFacilityFilters
    show (match um bs with
      | Except.error e => (slog, some e)
      | Except.ok lfilters =>
        (List.foldl (fun (l : Logger) (kv : GoStr × GoStr) =>
          AddFacilityFilter l kv.1 (StringToLogLevel kv.2)) slog lfilters,
          none)) = _
    rw [he]
  · unfold LoadFacilityFilters
    show (match um bs with
      | Except.error e => (slog, some e)
      | Except.ok lfilters =>
        (List.foldl (fun (l : Logger) (kv : GoStr × GoStr) =>
          AddFacilityFilter l kv.1 (StringToLogLevel kv.2)) slog lfilters,
          none)) = _
    rw [he]

/-- Fixture for C8: a logger with one previously loaded filter. -/
def c8Logger : Logger :=
  { pfx := gs "svc", MinLoglevel := 3, filename := gs "app.log", rotate := false,
    rotatesize := 0, keep := 0, rotation_running := false,
    filters := { count := 1, filters := [⟨gs "svc", 4⟩] } }

/-- Witness for C8: a successful load of one entry onto a logger that already
holds a filter. -/
theorem c8_load_filters_witness :
    (LoadFacilityFilters c8Logger (Except.ok (gs "x"))
        (fun _ => Except.ok [(gs "svc.db", gs "DEBUG")])).2 = none ∧
    (LoadFacilityFilters c8Logger (Except.ok (gs "x"))
        (fun _ => Except.ok [(gs "svc.db", gs "DEBUG")])).1.filters.filters =
      [⟨gs "svc", 4⟩, ⟨gs "svc.db", 2⟩] := by
  have h := (c8_load_filters c8Logger (fun _ => Except.ok [(gs "svc.db", gs "DEBUG")])
    (gs "x")).2.2 [(gs "svc.db", gs "DEBUG")] rfl
  constructor
  · rw [h.1]
  · rw [h.1]
    show (List.foldl _ c8Logger _).filters.filters = _
    rw [h.2]
    decide

/-! Claim C7: applying new settings. -/

/-- C7: when the new size string parses, `ApplyNewSettings` with values all
identical to the current configuration returns `false` with the state — the
logger, the filesystem, and the trace of written log lines — untouched; and
it returns `true` whenever at least one compared field differs. -/
theorem c7_apply_settings :
    ∀ (tsLen : Nat) (st : MSt) (newFile : GoStr) (newLevel : Int) (newRotation : Bool)
      (newRotSize : GoStr) (newKeep : Int) (nrs : Int),
      logSizeStringToLogSizeInt64 newRotSize = .ok nrs →
      ((newFile = st.lg.filename ∧ newLevel = st.lg.MinLoglevel ∧ newRotation = st.lg.rotate ∧
        nrs = st.lg.rotatesize ∧ newKeep = st.lg.keep) →
        ApplyNewSettings tsLen st newFile newLevel newRotation newRotSize newKeep = (st, false)) ∧
      ((newFile ≠ st.lg.filename ∨ newLevel ≠ st.lg.MinLoglevel ∨ newRotation ≠ st.lg.rotate ∨
        nrs ≠ st.lg.rotatesize ∨ newKeep ≠ st.lg.keep) →
        (ApplyNewSettings tsLen st newFile newLevel newRotation newRotSize newKeep).2 = true) := by
  intro tsLen st newFile newLevel newRotation newRotSize newKeep nrs hparse
  constructor
  · rintro ⟨h1, h2, h3, h4, h5⟩
    unfold ApplyNewSettings
    rw [hparse]
    show applyBody tsLen st nrs newFile newLevel newRotation newKeep = (st, false)
    unfold applyBody
    rw [if_neg (by push_neg; exact ⟨h1, h2, h3, h4, h5⟩)]
  · intro hd
    unfold ApplyNewSettings
    rw [hparse]
    show (applyBody tsLen st nrs newFile newLevel newRotation newKeep).2 = true
    unfold applyBody
    rw [if_pos hd]

/-- Fixture for C7: a logger with rotation at 10240 bytes keeping 3
generations, and its run-time state. -/
def c7Logger : Logger :=
  { pfx := gs "svc", MinLoglevel := 3, filename := gs "app.log", rotate := true,
    rotatesize := 10240, keep := 3, rotation_running := false,
    filters := { count := 0, filters := [] } }

/-- Run-time state for the C7 witness. -/
def c7St : MSt :=
  { lg := c7Logger, fs := [(gs "app.log", ⟨0, 0o640⟩)], written := [], echoed := [],
    exited := none }

/-- Witness for C7: identical settings are a no-op returning false. -/
theorem c7_apply_settings_witness :
    ApplyNewSettings 27 c7St (gs "app.log") 3 true (gs "10K") 3 = (c7St, false) :=
  (c7_apply_settings 27 c7St (gs "app.log") 3 true (gs "10K") 3 10240 (by decide)).1
    ⟨rfl, rfl, rfl, rfl, rfl⟩

/-! Claim C5: FATAL logging. -/

/-- Equation for `LogFatal` when the facility gate passes. -/
theorem LogFatal_gate (tsLen : Nat) (st : MSt) (function source text : GoStr) (exitcode : Int)
    (hgate : getFilteredLogLevel st.lg (facName st.lg function source) ≤ 6) :
    LogFatal tsLen st function source text exitcode =
      (fun st2 =>
        { writeLn tsLen st2 (fmtLine (gs "FATAL   ") function st2.lg.pfx source text) with
          echoed := st2.echoed ++
            [gs "FATAL: [" ++ function ++ gs "] " ++ st2.lg.pfx ++ gs "." ++ source ++
              gs " " ++ text],
          exited := some exitcode })
        (match (logRotateM tsLen st).2 with
         | some e =>
           logAt 1 tsLen (logRotateM tsLen st).1 5 (gs "ERROR   ") (gs "LogError")
             (gs "LogFatal") (gs "servicelogger") (gs "Log rotation error: " ++ errText e)
         | none => (logRotateM tsLen st).1) := by
  unfold LogFatal
  rw [if_pos hgate]
  rfl

/-- C5: when every filter level and the minimum level lie within the six-level
enumeration, the effective threshold is at most FATAL = 6, so the gate never
suppresses a `LogFatal` call: the FATAL-formatted line is written to the
current log file, the echo line goes to standard output, and the process
terminates with the supplied exit code. -/
theorem c5_logfatal :
    ∀ (tsLen : Nat) (st : MSt) (function source text : GoStr) (exitcode : Int),
      (∀ f ∈ st.lg.filters.filters, f.level ≤ 6) → st.lg.MinLoglevel ≤ 6 →
      getFilteredLogLevel st.lg (facName st.lg function source) ≤ 6 ∧
      (LogFatal tsLen st function source text exitcode).exited = some exitcode ∧
      (st.lg.filename, fmtLine (gs "FATAL   ") function st.lg.pfx source text) ∈
        (LogFatal tsLen st function source text exitcode).written ∧
      (gs "FATAL: [" ++ function ++ gs "] " ++ st.lg.pfx ++ gs "." ++ source ++ gs " " ++ text) ∈
        (LogFatal tsLen st function source text exitcode).echoed := by
  intro tsLen st function source text exitcode hf hm
  have hgate := getFilteredLogLevel_le6 st.lg (facName st.lg function source) hf hm
  rw [LogFatal_gate tsLen st function source text exitcode hgate]
  refine ⟨hgate, ?_⟩
  cases hrot : (logRotateM tsLen st).2 with
  | some e =>
    set st2 := logAt 1 tsLen (logRotateM tsLen st).1 5 (gs "ERROR   ") (gs "LogError")
      (gs "LogFatal") (gs "servicelogger") (gs "Log rotation error: " ++ errText e) with hst2
    have hpfx : st2.lg.pfx = st.lg.pfx := by
      rw [hst2, logAt_pfx, logRotateM_pfx]
    have hfn : st2.lg.filename = st.lg.filename := by
      rw [hst2, logAt_filename, logRotateM_filename]
    refine ⟨rfl, ?_, ?_⟩
    · show (st.lg.filename, fmtLine (gs "FATAL   ") function st.lg.pfx source text) ∈
        st2.written ++ [(st2.lg.filename, fmtLine (gs "FATAL   ") function st2.lg.pfx source text)]
      rw [hpfx, hfn]
      simp
    · show _ ∈ st2.echoed ++
        [gs "FATAL: [" ++ function ++ gs "] " ++ st2.lg.pfx ++ gs "." ++ source ++ gs " " ++ text]
      rw [hpfx]
      simp
  | none =>
    set st2 := (logRotateM tsLen st).1 with hst2
    have hpfx : st2.lg.pfx = st.lg.pfx := by
      rw [hst2, logRotateM_pfx]
    have hfn : st2.lg.filename = st.lg.filename := by
      rw [hst2, logRotateM_filename]
    refine ⟨rfl, ?_, ?_⟩
    · show (st.lg.filename, fmtLine (gs "FATAL   ") function st.lg.pfx source text) ∈
        st2.written ++ [(st2.lg.filename, fmtLine (gs "FATAL   ") function st2.lg.pfx source text)]
      rw [hpfx, hfn]
      simp
    · show _ ∈ st2.echoed ++
        [gs "FATAL: [" ++ function ++ gs "] " ++ st2.lg.pfx ++ gs "." ++ source ++ gs " " ++ text]
      rw [hpfx]
      simp

/-- Fixture for C5: a logger whose filters would bar everything below FATAL. -/
def c5Logger : Logger :=
  { pfx := gs "svc", MinLoglevel := 3, filename := gs "app.log", rotate := false,
    rotatesize := 0, keep := 0, rotation_running := false,
    filters := { count := 1, filters := [⟨gs "svc", 6⟩] } }

/-- Run-time state for the C5 witness. -/
def c5St : MSt :=
  { lg := c5Logger, fs := [(gs "app.log", ⟨0, 0o640⟩)], written := [], echoed := [],
    exited := none }

/-- Witness for C5: even with a FATAL-level filter covering the facility, the
call exits with the supplied code. -/
theorem c5_logfatal_witness :
    (LogFatal 27 c5St (gs "boom") (gs "db") (gs "stop") 9).exited = some 9 :=
  (c5_logfatal 27 c5St (gs "boom") (gs "db") (gs "stop") 9 (by decide) (by decide)).2.1

/-! Claim C2: rotation flag reset and repeated rotation. -/

/-- Fixture for C2: rotation at 100 bytes keeping 3 generations, minimum
level INFO (so the internal TRACE calls of `logRotate` are filtered out). -/
def c2Logger : Logger :=
  { pfx := gs "svc", MinLoglevel := 3, filename := gs "app.log", rotate := true,
    rotatesize := 100, keep := 3, rotation_running := false,
    filters := { count := 0, filters := [] } }

/-- Initial state for C2: the live file is past the threshold and all three
generations exist (with distinguishable sizes 101, 102, 103). -/
def c2St : MSt :=
  { lg := c2Logger,
    fs := [(gs "app.log", ⟨120, 0o640⟩), (gs "app.log.1", ⟨101, 0o640⟩),
      (gs "app.log.2", ⟨102, 0o640⟩), (gs "app.log.3", ⟨103, 0o640⟩)],
    written := [], echoed := [], exited := none }

/-- State after the first rotation check of the C2 scenario. -/
def c2AfterFirst : MSt := (logRotateM 27 c2St).1

/-- The C2 scenario state after 150 further bytes were written to the fresh
live file. -/
def c2Refilled : MSt :=
  { c2AfterFirst with fs := fsAppend c2AfterFirst.fs (gs "app.log") 150 }

/-- The C2 scenario state after a later `LogInfo` call whose size check meets
the threshold again. -/
def c2Second : MSt := LogInfo 27 c2Refilled (gs "handler") (gs "db") (gs "write after refill")

/-- C2: a rotation check that completes without error from a non-running
state leaves `rotation_running` false again; concretely, after a completed
rotation a later logging call whose size check meets the threshold performs a
second rotation, shifting generation 1 to 2 and 2 to 3 and deleting the
pre-existing generation 3 (size 102 after the first round) before the shift. -/
theorem c2_rotation_flag :
    (∀ (tsLen : Nat) (st : MSt), st.lg.rotation_running = false →
      (logRotateM tsLen st).2 = none →
      ((logRotateM tsLen st).1).lg.rotation_running = false) ∧
    (logRotateM 27 c2St).2 = none ∧
    c2AfterFirst.lg.rotation_running = false ∧
    fsStat c2AfterFirst.fs (gs "app.log") = some ⟨0, 0o640⟩ ∧
    fsStat c2AfterFirst.fs (gs "app.log.1") = some ⟨120, 0o640⟩ ∧
    fsStat c2AfterFirst.fs (gs "app.log.2") = some ⟨101, 0o640⟩ ∧
    fsStat c2AfterFirst.fs (gs "app.log.3") = some ⟨102, 0o640⟩ ∧
    fsStat c2Second.fs (gs "app.log.1") = some ⟨150, 0o640⟩ ∧
    fsStat c2Second.fs (gs "app.log.2") = some ⟨120, 0o640⟩ ∧
    fsStat c2Second.fs (gs "app.log.3") = some ⟨101, 0o640⟩ ∧
    c2Second.lg.rotation_running = false := by
  refine ⟨?_, by decide, by decide, by decide, by decide, by decide, by decide, by decide,
    by decide, by decide, by decide⟩
  intro tsLen st h0
  unfold logRotateM setFlag rotTrace writeLn
  repeat' (first | split | dsimp only)
  all_goals intro herr
  all_goals first
    | rfl
    | exact h0
    | simp at herr

/-- Witness for C2's flag clause at the concrete first rotation. -/
theorem c2_rotation_flag_witness : ((logRotateM 27 c2St).1).lg.rotation_running = false :=
  c2_rotation_flag.1 27 c2St rfl (by decide)

/-! Claim C4: the generational shift. -/

/-- Equation for a skipped internal trace call: when the logger's effective
level for the rotation facility is above TRACE, `rotTrace` writes nothing. -/
theorem rotTrace_skip (tsLen : Nat) (st : MSt) (text : GoStr)
    (h : ¬ (getFilteredLogLevel st.lg
      (facName st.lg (gs "logRotate") (gs "servicelogger")) ≤ 1)) :
    rotTrace tsLen st text = st := by
  unfold rotTrace
  rw [if_neg h]

/-- Core of C4, after the generation-`keep` delete has been abstracted into
`fs3`: the shift loop and the final renames produce a fresh empty live file
with mode 0640, generation 1 holding the old live record, generation `j`
holding the old generation `j-1` for `2 ≤ j ≤ K`, and no generation beyond
`K`. -/
theorem rotatePost (fname : GoStr) (K : Nat) (hK : 2 ≤ K) (fs3 stfs : FS) (rec0 : FileRec)
    (h3K : fsStat fs3 (genN fname K) = none)
    (h3other : ∀ x, x ≠ genN fname K → fsStat fs3 x = fsStat stfs x)
    (hlive : fsStat stfs fname = some rec0)
    (hpre : ∀ i : Nat, 1 ≤ i → (fsStat stfs (genN fname i)).isSome → i ≤ K) :
    fsStat (shiftLoop fname (K - 1) fs3) fname = some rec0 ∧
    fsStat (fsSet (fsSet (fsRemove (shiftLoop fname (K - 1) fs3) fname) (genN fname 1) rec0)
        fname ⟨0, 0o640⟩) fname = some ⟨0, 0o640⟩ ∧
    fsStat (fsSet (fsSet (fsRemove (shiftLoop fname (K - 1) fs3) fname) (genN fname 1) rec0)
        fname ⟨0, 0o640⟩) (genN fname 1) = some rec0 ∧
    (∀ j : Nat, 2 ≤ j → j ≤ K →
      fsStat (fsSet (fsSet (fsRemove (shiftLoop fname (K - 1) fs3) fname) (genN fname 1) rec0)
          fname ⟨0, 0o640⟩) (genN fname j) = fsStat stfs (genN fname (j - 1))) ∧
    (∀ i : Nat, 1 ≤ i →
      (fsStat (fsSet (fsSet (fsRemove (shiftLoop fname (K - 1) fs3) fname) (genN fname 1) rec0)
          fname ⟨0, 0o640⟩) (genN fname i)).isSome → i ≤ K) := by
  have hK1 : K - 1 + 1 = K := by omega
  obtain ⟨s1, s2, s3⟩ := shiftLoop_spec fname (K - 1) fs3 (by rw [hK1]; exact h3K)
  have hfs4live : fsStat (shiftLoop fname (K - 1) fs3) fname = some rec0 := by
    rw [s3 fname (fun j hj1 hj2 => (genN_ne_base fname j).symm),
      h3other fname (genN_ne_base fname K).symm]
    exact hlive
  refine ⟨hfs4live, ?_, ?_, ?_, ?_⟩
  · rw [fsStat_fsSet, if_pos rfl]
  · rw [fsStat_fsSet, if_neg (fun heq => genN_ne_base fname 1 heq.symm),
      fsStat_fsSet, if_pos rfl]
  · intro j h2 hjK
    rw [fsStat_fsSet, if_neg (fun heq => genN_ne_base fname j heq.symm),
      fsStat_fsSet, if_neg (fun heq => by have := genN_inj heq; omega),
      fsStat_fsRemove, if_neg (fun heq => genN_ne_base fname j heq.symm),
      s1 j h2 (by omega),
      h3other (genN fname (j - 1)) (fun heq => by have := genN_inj heq; omega)]
  · intro i h1 hsome
    by_cases hiK : i ≤ K
    · exact hiK
    · exfalso
      rw [fsStat_fsSet, if_neg (fun heq => genN_ne_base fname i heq.symm),
        fsStat_fsSet, if_neg (fun heq => by have := genN_inj heq; omega),
        fsStat_fsRemove, if_neg (fun heq => genN_ne_base fname i heq.symm),
        s3 (genN fname i) (fun j hj1 hj2 heq => by have := genN_inj heq; omega),
        h3other (genN fname i) (fun heq => by have := genN_inj heq; omega)] at hsome
      have := hpre i h1 hsome
      omega

/-- C4: when rotation is enabled, no rotation is running, the keep count is
valid, the live file meets the threshold, the internal trace lines are
filtered out, and every existing generation index is at most `keep`, then
`logRotate` completes without error and afterwards the live file is empty
with mode 0640, generation 1 holds the old live file, generation `j` holds
the old generation `j-1` for `2 ≤ j ≤ keep` (so the pre-existing generation
`keep` was deleted first), and at most `keep` numbered generations exist. -/
theorem c4_generational_rotation :
    ∀ (tsLen : Nat) (st : MSt) (rec0 : FileRec),
      st.lg.rotate = true →
      st.lg.rotation_running = false →
      (2 : Int) ≤ st.lg.keep →
      fsStat st.fs st.lg.filename = some rec0 →
      st.lg.rotatesize ≤ (rec0.size : Int) →
      ¬ (getFilteredLogLevel st.lg
        (facName st.lg (gs "logRotate") (gs "servicelogger")) ≤ 1) →
      (∀ i : Nat, 1 ≤ i → (fsStat st.fs (genN st.lg.filename i)).isSome →
        (i : Int) ≤ st.lg.keep) →
      (logRotateM tsLen st).2 = none ∧
      fsStat ((logRotateM tsLen st).1).fs st.lg.filename = some ⟨0, 0o640⟩ ∧
      fsStat ((logRotateM tsLen st).1).fs (genN st.lg.filename 1) = some rec0 ∧
      (∀ j : Nat, 2 ≤ j → (j : Int) ≤ st.lg.keep →
        fsStat ((logRotateM tsLen st).1).fs (genN st.lg.filename j) =
          fsStat st.fs (genN st.lg.filename (j - 1))) ∧
      (∀ i : Nat, 1 ≤ i → (fsStat ((logRotateM tsLen st).1).fs (genN st.lg.filename i)).isSome →
        (i : Int) ≤ st.lg.keep) := by
  intro tsLen st rec0 hrot hflag hkeep hstat hsz hTrace hpre
  have hcond : (st.lg.rotate && !st.lg.rotation_running) = true := by
    rw [hrot, hflag]
    rfl
  set K := st.lg.keep.toNat with hKdef
  have hKcast : (K : Int) = st.lg.keep := Int.toNat_of_nonneg (by omega)
  have hK2 : 2 ≤ K := by omega
  have hgK : genName st.lg.filename st.lg.keep = genN st.lg.filename K := by
    unfold genN
    rw [hKcast]
  have hg1 : genName st.lg.filename (1 : Int) = genN st.lg.filename 1 := by
    unfold genN
    norm_num
  have hKm1 : (st.lg.keep - 1).toNat = K - 1 := by omega
  have hpreK : ∀ i : Nat, 1 ≤ i → (fsStat st.fs (genN st.lg.filename i)).isSome → i ≤ K := by
    intro i h1 hsome
    have := hpre i h1 hsome
    omega
  have hTrace1 : ¬ (getFilteredLogLevel { st.lg with rotation_running := true }
      (facName { st.lg with rotation_running := true } (gs "logRotate")
        (gs "servicelogger")) ≤ 1) := hTrace
  have h3K : fsStat (if (fsStat st.fs (genName st.lg.filename st.lg.keep)).isSome then
      fsRemove st.fs (genName st.lg.filename st.lg.keep) else st.fs)
      (genN st.lg.filename K) = none := by
    cases ho : fsStat st.fs (genName st.lg.filename st.lg.keep) with
    | none =>
      show fsStat st.fs (genN st.lg.filename K) = none
      rw [← hgK]
      exact ho
    | some r =>
      show fsStat (fsRemove st.fs (genName st.lg.filename st.lg.keep))
        (genN st.lg.filename K) = none
      rw [hgK, fsStat_fsRemove, if_pos rfl]
  have h3other : ∀ x, x ≠ genN st.lg.filename K →
      fsStat (if (fsStat st.fs (genName st.lg.filename st.lg.keep)).isSome then
        fsRemove st.fs (genName st.lg.filename st.lg.keep) else st.fs) x = fsStat st.fs x := by
    intro x hx
    cases ho : fsStat st.fs (genName st.lg.filename st.lg.keep) with
    | none => rfl
    | some r =>
      show fsStat (fsRemove st.fs (genName st.lg.filename st.lg.keep)) x = fsStat st.fs x
      rw [hgK, fsStat_fsRemove, if_neg (fun heq => hx heq.symm)]
  obtain ⟨m1, m2, m3, m4, m5⟩ := rotatePost st.lg.filename K hK2
    (if (fsStat st.fs (genName st.lg.filename st.lg.keep)).isSome then
      fsRemove st.fs (genName st.lg.filename st.lg.keep) else st.fs)
    st.fs rec0 h3K h3other hstat hpreK
  unfold logRotateM setFlag rotTrace
  rw [if_pos hcond]
  dsimp only
  rw [hstat]
  dsimp only
  rw [if_pos hsz]
  simp only [if_neg hTrace1]
  rw [hKm1, m1]
  dsimp only
  rw [hg1]
  refine ⟨rfl, m2, m3, ?_, ?_⟩
  · intro j h2 hj
    rw [m4 j h2 (by omega)]
  · intro i h1 hsome
    have := m5 i h1 hsome
    omega

/-- Fixture for C4: rotation at 100 bytes keeping 3 generations, minimum
level INFO. -/
def c4Logger : Logger :=
  { pfx := gs "svc", MinLoglevel := 3, filename := gs "app.log", rotate := true,
    rotatesize := 100, keep := 3, rotation_running := false,
    filters := { count := 0, filters := [] } }

/-- Run-time state for the C4 witness: only the oversized live file exists. -/
def c4St : MSt :=
  { lg := c4Logger, fs := [(gs "app.log", ⟨120, 0o640⟩)], written := [], echoed := [],
    exited := none }

/-- Witness for C4 at a concrete oversized live file. -/
theorem c4_generational_rotation_witness :
    (logRotateM 27 c4St).2 = none ∧
    fsStat ((logRotateM 27 c4St).1).fs (gs "app.log") = some ⟨0, 0o640⟩ ∧
    fsStat ((logRotateM 27 c4St).1).fs (genN (gs "app.log") 1) = some ⟨120, 0o640⟩ := by
  have hpre : ∀ i : Nat, 1 ≤ i → (fsStat c4St.fs (genN c4St.lg.filename i)).isSome →
      (i : Int) ≤ c4St.lg.keep := by
    intro i h1 hsome
    have hnone : fsStat c4St.fs (genN c4St.lg.filename i) = none := by
      show (if gs "app.log" = genN (gs "app.log") i then some (⟨120, 0o640⟩ : FileRec)
        else none) = none
      rw [if_neg (fun h => genN_ne_base (gs "app.log") i h.symm)]
    rw [hnone] at hsome
    simp at hsome
  have h := c4_generational_rotation 27 c4St ⟨120, 0o640⟩ rfl rfl (by decide) rfl (by decide)
    (by decide) hpre
  exact ⟨h.1, h.2.1, h.2.2.1⟩
